import Mathlib

/-!
Verification development for the axiom-patterns tool
(src/axiom-patterns/axiompatterns.py).

The tool walks OWL axiom trees (as produced by the pyhornedowl library),
filters out structurally uninteresting axioms (ignore), replaces every
entity identifier by a positional placeholder name (normalise with a
per-axiom Context), renders the canonical axiom to a Manchester-like
string (to_ms), and counts how often each canonical axiom occurs
(analyse_file / Counter).

The Python data model (pyhornedowl.model) is a closed family of
tagged-variant classes; it is embedded below as Lean inductive types.
Leaf entities (Class, ObjectProperty, DataProperty, AnnotationProperty,
NamedIndividual, Variable) are single-field wrappers around an IRI in
Python; here the wrapped IRI string is stored directly at each use site
and the wrapper kind is tracked by the surrounding constructor.
Data ranges and literals are never inspected by the tool (only passed
through and interpolated via str()), so they are carried as the opaque
strings they print as.
-/

namespace AxiomPatterns

abbrev IRI := String

/-- Individuals (pyhornedowl Individual = NamedIndividual or
AnonymousIndividual). -/
inductive Individual where
| NamedIndividual (iri : IRI)
| AnonymousIndividual (id : String)
deriving DecidableEq

/-- Object property expressions. In the source, InverseObjectProperty
wraps an ObjectProperty entity; the wrapped IRI is stored here. -/
inductive ObjectPropertyExpression where
| ObjectProperty (first : IRI)
| InverseObjectProperty (first : IRI)
deriving DecidableEq

/-- SWRL data arguments: a literal (opaque string) or a Variable entity. -/
inductive DArg where
| lit (l : String)
| Variable (v : IRI)
deriving DecidableEq

/-- SWRL individual arguments: an Individual or a Variable entity. -/
inductive IArg where
| ind (i : Individual)
| Variable (v : IRI)
deriving DecidableEq

/-- Class expressions (pyhornedowl ClassExpression). The Data variants
carry a DataProperty entity (its IRI) plus an opaque data range or
literal string. -/
inductive ClassExpression where
| Class (first : IRI)
| ObjectIntersectionOf (first : List ClassExpression)
| ObjectUnionOf (first : List ClassExpression)
| ObjectComplementOf (first : ClassExpression)
| ObjectOneOf (first : List Individual)
| ObjectSomeValuesFrom (ope : ObjectPropertyExpression) (bce : ClassExpression)
| ObjectAllValuesFrom (ope : ObjectPropertyExpression) (bce : ClassExpression)
| ObjectHasValue (ope : ObjectPropertyExpression) (i : Individual)
| ObjectHasSelf (first : ObjectPropertyExpression)
| ObjectMinCardinality (n : Nat) (ope : ObjectPropertyExpression) (bce : ClassExpression)
| ObjectMaxCardinality (n : Nat) (ope : ObjectPropertyExpression) (bce : ClassExpression)
| ObjectExactCardinality (n : Nat) (ope : ObjectPropertyExpression) (bce : ClassExpression)
| DataSomeValuesFrom (dp : IRI) (dr : String)
| DataAllValuesFrom (dp : IRI) (dr : String)
| DataHasValue (dp : IRI) (l : String)
| DataMinCardinality (n : Nat) (dp : IRI) (dr : String)
| DataMaxCardinality (n : Nat) (dp : IRI) (dr : String)
| DataExactCardinality (n : Nat) (dp : IRI) (dr : String)

/-- SWRL rule atoms. BuiltInAtom carries a plain IRI predicate;
ClassAtom a class expression; DataPropertyAtom and ObjectPropertyAtom a
property entity or expression and a pair of arguments. -/
inductive Atom where
| BuiltInAtom (pred : IRI) (args : List DArg)
| ClassAtom (pred : ClassExpression) (arg : IArg)
| DataPropertyAtom (pred : IRI) (args : DArg × DArg)
| DifferentIndividualsAtom (first : IArg) (second : IArg)
| ObjectPropertyAtom (pred : ObjectPropertyExpression) (args : IArg × IArg)
| SameIndividualAtom (first : IArg) (second : IArg)

/-- The sub position of SubObjectPropertyOf: either a single object
property expression or a property chain (list of them). -/
inductive SubObjectPropertyExpression where
| ope (o : ObjectPropertyExpression)
| chain (l : List ObjectPropertyExpression)
deriving DecidableEq

/-- HasKey key list elements: an object property expression, a
DataProperty entity, or an AnnotationProperty entity. -/
inductive PropertyExpression where
| opeP (o : ObjectPropertyExpression)
| dp (d : IRI)
| ap (a : IRI)
deriving DecidableEq

/-- Axiom-level components (pyhornedowl Component). Payloads that the
tool never inspects (ontology metadata, declarations, assertions,
annotations) are carried in a representative concrete form.
The source name OntologyAnnotation is shortened to OntologyAnn here. -/
inductive Component where
| OntologyID (payload : String)
| DocIRI (iri : IRI)
| OntologyAnn (payload : String)
| Import (iri : IRI)
| DeclareClass (iri : IRI)
| DeclareObjectProperty (iri : IRI)
| DeclareAnnotationProperty (iri : IRI)
| DeclareDataProperty (iri : IRI)
| DeclareNamedIndividual (iri : IRI)
| DeclareDatatype (iri : IRI)
| SubClassOf (sub : ClassExpression) (sup : ClassExpression)
| EquivalentClasses (first : List ClassExpression)
| DisjointClasses (first : List ClassExpression)
| DisjointUnion (first : IRI) (second : List ClassExpression)
| SubObjectPropertyOf (sub : SubObjectPropertyExpression) (sup : ObjectPropertyExpression)
| EquivalentObjectProperties (first : List ObjectPropertyExpression)
| DisjointObjectProperties (first : List ObjectPropertyExpression)
| InverseObjectProperties (first : IRI) (second : IRI)
| ObjectPropertyDomain (ope : ObjectPropertyExpression) (ce : ClassExpression)
| ObjectPropertyRange (ope : ObjectPropertyExpression) (ce : ClassExpression)
| FunctionalObjectProperty (first : ObjectPropertyExpression)
| InverseFunctionalObjectProperty (first : ObjectPropertyExpression)
| ReflexiveObjectProperty (first : ObjectPropertyExpression)
| IrreflexiveObjectProperty (first : ObjectPropertyExpression)
| SymmetricObjectProperty (first : ObjectPropertyExpression)
| AsymmetricObjectProperty (first : ObjectPropertyExpression)
| TransitiveObjectProperty (first : ObjectPropertyExpression)
| SubDataPropertyOf (sub : IRI) (sup : IRI)
| EquivalentDataProperties (first : List IRI)
| DisjointDataProperties (first : List IRI)
| DataPropertyDomain (dp : IRI) (ce : ClassExpression)
| DataPropertyRange (dp : IRI) (dr : String)
| FunctionalDataProperty (first : IRI)
| HasKey (ce : ClassExpression) (vpe : List PropertyExpression)
| SubAnnotationPropertyOf (sub : IRI) (sup : IRI)
| AnnotationPropertyDomain (ap : IRI) (iri : IRI)
| AnnotationPropertyRange (ap : IRI) (iri : IRI)
| SameIndividual (first : List Individual)
| DifferentIndividuals (first : List Individual)
| ClassAssertion (ce : ClassExpression) (i : Individual)
| ObjectPropertyAssertion (ope : ObjectPropertyExpression) (source : Individual) (target : Individual)
| NegativeObjectPropertyAssertion (ope : ObjectPropertyExpression) (source : Individual) (target : Individual)
| DataPropertyAssertion (dp : IRI) (source : Individual) (target : String)
| NegativeDataPropertyAssertion (dp : IRI) (source : Individual) (target : String)
| AnnotationAssertion (subject : IRI) (payload : String)
| Rule (head : List Atom) (body : List Atom)

/-- Bijective positional numbering (source: _index_to_str, lines
238 to 244). The Python loop runs while index is nonnegative, doing
res = choices[index mod L] + res and index = index div L - 1; the loop
exits exactly when index div L = 0. The accumulated string is built
here as a list of characters, oldest iteration last. The getD default
is never used when choices is nonempty (index mod L < L). -/
def _index_to_chars_fuel (choices : List Char) : Nat → Nat → List Char
  | 0, _ => []
  | fuel + 1, index =>
      let c := choices.getD (index % choices.length) 'A'
      if index / choices.length = 0 then [c]
      else _index_to_chars_fuel choices fuel (index / choices.length - 1) ++ [c]

/-- The loop of _index_to_str runs at most index + 1 times (the index
strictly decreases each iteration), so fuel index + 1 computes it
exactly; the unfolding equation _index_to_chars_unfold below recovers
the loop-shaped recursion. -/
def _index_to_chars (index : Nat) (choices : List Char) : List Char :=
  _index_to_chars_fuel choices (index + 1) index

/-- The string produced by the bijective positional numbering. -/
def _index_to_str (index : Nat) (choices : List Char) : String :=
  String.mk (_index_to_chars index choices)

/-- The class alphabet of class_generator (line 248):
chr(c) for c in range(ord("A"), ord("O")), an end-exclusive range,
giving the 14 letters A to N. -/
def class_alphabet : List Char :=
  (List.range ( 'O'.toNat - 'A'.toNat)).map (fun c => Char.ofNat ( 'A'.toNat + c))

/-- The property alphabet of property_generator (line 253). -/
def property_alphabet : List Char := ['R', 'S', 'T', 'U', 'V', 'W', 'P', 'Q']

/-- Element i of the infinite generator created by class_generator. -/
def class_generator (i : Nat) : String := _index_to_str i class_alphabet

/-- Element i of the infinite generator created by property_generator. -/
def property_generator (i : Nat) : String := _index_to_str i property_alphabet

/-- Element i of the infinite generator created by var_generator
(line 258): decimal-suffixed names X0, X1, and so on. -/
def var_generator (i : Nat) : String := "X" ++ toString i

/-- Per-axiom canonicalization state (source: dataclass Context, lines
261 to 266). The three Python generator fields are modelled by the
position each generator has been advanced to; substitutions is the
dict from original identifier to its assigned canonical name. The
source field name variables is a Lean keyword and is shortened to
vars. -/
structure Context where
  substitutions : List (String × String) := []
  properties : Nat := 0
  classes : Nat := 0
  vars : Nat := 0
deriving DecidableEq

/-- The kind of a leaf entity, as discriminated by the isinstance
checks inside the source function sub (lines 275 to 280). -/
inductive EntityKind where
| classK
| objectPropertyK
| dataPropertyK
| annotationPropertyK
| variableK
deriving DecidableEq

/-- The name the next fresh identifier of the given kind would receive:
the sequence matching the kind, at the current generator position. -/
def next_name (kind : EntityKind) (ctx : Context) : String :=
  match kind with
  | .classK => class_generator ctx.classes
  | .objectPropertyK | .dataPropertyK | .annotationPropertyK =>
      property_generator ctx.properties
  | .variableK => var_generator ctx.vars

/-- Advance the generator matching the given kind by one. -/
def bump (kind : EntityKind) (ctx : Context) : Context :=
  match kind with
  | .classK => { ctx with classes := ctx.classes + 1 }
  | .objectPropertyK | .dataPropertyK | .annotationPropertyK =>
      { ctx with properties := ctx.properties + 1 }
  | .variableK => { ctx with vars := ctx.vars + 1 }

/-- Identifier substitution (source: sub, lines 269 to 285). The
substitution dict is keyed by the identifier string alone; on a miss
the next name is pulled from the generator matching the kind of the
entity, recorded, and returned. The Python function returns an entity
of the same runtime type wrapping the new name; callers below rebuild
that wrapper, so this returns the new identifier and the new state. -/
def sub (kind : EntityKind) (iri : IRI) (ctx : Context) : IRI × Context :=
  match ctx.substitutions.lookup iri with
  | some s => (s, ctx)
  | none =>
      let s := next_name kind ctx
      let ctx := bump kind ctx
      (s, { ctx with substitutions := (iri, s) :: ctx.substitutions })

/-! ## Structural equality

Python compares pyhornedowl model objects structurally (field by
field); the Counter in analyse_file and the aggregate Counter in main
are keyed by that equality. The beq functions below implement it for
the nested types (the derived instances cover the simple ones). -/

mutual
def beqCE : ClassExpression → ClassExpression → Bool
  | .Class a, .Class b => a == b
  | .ObjectIntersectionOf a, .ObjectIntersectionOf b => beqCEList a b
  | .ObjectUnionOf a, .ObjectUnionOf b => beqCEList a b
  | .ObjectComplementOf a, .ObjectComplementOf b => beqCE a b
  | .ObjectOneOf a, .ObjectOneOf b => a == b
  | .ObjectSomeValuesFrom p a, .ObjectSomeValuesFrom q b => p == q && beqCE a b
  | .ObjectAllValuesFrom p a, .ObjectAllValuesFrom q b => p == q && beqCE a b
  | .ObjectHasValue p a, .ObjectHasValue q b => p == q && a == b
  | .ObjectHasSelf a, .ObjectHasSelf b => a == b
  | .ObjectMinCardinality m p a, .ObjectMinCardinality n q b =>
      m == n && p == q && beqCE a b
  | .ObjectMaxCardinality m p a, .ObjectMaxCardinality n q b =>
      m == n && p == q && beqCE a b
  | .ObjectExactCardinality m p a, .ObjectExactCardinality n q b =>
      m == n && p == q && beqCE a b
  | .DataSomeValuesFrom p a, .DataSomeValuesFrom q b => p == q && a == b
  | .DataAllValuesFrom p a, .DataAllValuesFrom q b => p == q && a == b
  | .DataHasValue p a, .DataHasValue q b => p == q && a == b
  | .DataMinCardinality m p a, .DataMinCardinality n q b =>
      m == n && p == q && a == b
  | .DataMaxCardinality m p a, .DataMaxCardinality n q b =>
      m == n && p == q && a == b
  | .DataExactCardinality m p a, .DataExactCardinality n q b =>
      m == n && p == q && a == b
  | _, _ => false

def beqCEList : List ClassExpression → List ClassExpression → Bool
  | [], [] => true
  | a :: as_, b :: bs => beqCE a b && beqCEList as_ bs
  | _, _ => false
end

instance : BEq ClassExpression := ⟨beqCE⟩

def beqAtom : Atom → Atom → Bool
  | .BuiltInAtom p a, .BuiltInAtom q b => p == q && a == b
  | .ClassAtom p a, .ClassAtom q b => beqCE p q && a == b
  | .DataPropertyAtom p a, .DataPropertyAtom q b => p == q && a == b
  | .DifferentIndividualsAtom f s, .DifferentIndividualsAtom g t =>
      f == g && s == t
  | .ObjectPropertyAtom p a, .ObjectPropertyAtom q b => p == q && a == b
  | .SameIndividualAtom f s, .SameIndividualAtom g t => f == g && s == t
  | _, _ => false

instance : BEq Atom := ⟨beqAtom⟩

def beqComponent : Component → Component → Bool
  | .OntologyID a, .OntologyID b => a == b
  | .DocIRI a, .DocIRI b => a == b
  | .OntologyAnn a, .OntologyAnn b => a == b
  | .Import a, .Import b => a == b
  | .DeclareClass a, .DeclareClass b => a == b
  | .DeclareObjectProperty a, .DeclareObjectProperty b => a == b
  | .DeclareAnnotationProperty a, .DeclareAnnotationProperty b => a == b
  | .DeclareDataProperty a, .DeclareDataProperty b => a == b
  | .DeclareNamedIndividual a, .DeclareNamedIndividual b => a == b
  | .DeclareDatatype a, .DeclareDatatype b => a == b
  | .SubClassOf s p, .SubClassOf t q => beqCE s t && beqCE p q
  | .EquivalentClasses a, .EquivalentClasses b => beqCEList a b
  | .DisjointClasses a, .DisjointClasses b => beqCEList a b
  | .DisjointUnion f a, .DisjointUnion g b => f == g && beqCEList a b
  | .SubObjectPropertyOf s p, .SubObjectPropertyOf t q => s == t && p == q
  | .EquivalentObjectProperties a, .EquivalentObjectProperties b => a == b
  | .DisjointObjectProperties a, .DisjointObjectProperties b => a == b
  | .InverseObjectProperties f s, .InverseObjectProperties g t =>
      f == g && s == t
  | .ObjectPropertyDomain p a, .ObjectPropertyDomain q b => p == q && beqCE a b
  | .ObjectPropertyRange p a, .ObjectPropertyRange q b => p == q && beqCE a b
  | .FunctionalObjectProperty a, .FunctionalObjectProperty b => a == b
  | .InverseFunctionalObjectProperty a, .InverseFunctionalObjectProperty b => a == b
  | .ReflexiveObjectProperty a, .ReflexiveObjectProperty b => a == b
  | .IrreflexiveObjectProperty a, .IrreflexiveObjectProperty b => a == b
  | .SymmetricObjectProperty a, .SymmetricObjectProperty b => a == b
  | .AsymmetricObjectProperty a, .AsymmetricObjectProperty b => a == b
  | .TransitiveObjectProperty a, .TransitiveObjectProperty b => a == b
  | .SubDataPropertyOf s p, .SubDataPropertyOf t q => s == t && p == q
  | .EquivalentDataProperties a, .EquivalentDataProperties b => a == b
  | .DisjointDataProperties a, .DisjointDataProperties b => a == b
  | .DataPropertyDomain p a, .DataPropertyDomain q b => p == q && beqCE a b
  | .DataPropertyRange p a, .DataPropertyRange q b => p == q && a == b
  | .FunctionalDataProperty a, .FunctionalDataProperty b => a == b
  | .HasKey c a, .HasKey d b => beqCE c d && a == b
  | .SubAnnotationPropertyOf s p, .SubAnnotationPropertyOf t q =>
      s == t && p == q
  | .AnnotationPropertyDomain p a, .AnnotationPropertyDomain q b =>
      p == q && a == b
  | .AnnotationPropertyRange p a, .AnnotationPropertyRange q b =>
      p == q && a == b
  | .SameIndividual a, .SameIndividual b => a == b
  | .DifferentIndividuals a, .DifferentIndividuals b => a == b
  | .ClassAssertion c i, .ClassAssertion d j => beqCE c d && i == j
  | .ObjectPropertyAssertion p s t, .ObjectPropertyAssertion q u v =>
      p == q && s == u && t == v
  | .NegativeObjectPropertyAssertion p s t, .NegativeObjectPropertyAssertion q u v =>
      p == q && s == u && t == v
  | .DataPropertyAssertion p s t, .DataPropertyAssertion q u v =>
      p == q && s == u && t == v
  | .NegativeDataPropertyAssertion p s t, .NegativeDataPropertyAssertion q u v =>
      p == q && s == u && t == v
  | .AnnotationAssertion s a, .AnnotationAssertion t b => s == t && a == b
  | .Rule h b, .Rule h2 b2 => h == h2 && b == b2
  | _, _ => false

instance : BEq Component := ⟨beqComponent⟩

/-! ## Exclusion filter (source: ignore, lines 142 to 235) -/

/-- The ignore branch for Individual values (lines 144 and 145). -/
def ignoreIndividual (_ : Individual) : Bool := true

/-- Filtering of a SWRL individual argument: an Individual matches the
Individual branch (true); a Variable matches no branch and falls
through to the final return False. -/
def ignoreIArg : IArg → Bool
  | .ind _ => true
  | .Variable _ => false

mutual
def ignoreCE : ClassExpression → Bool
  | .ObjectIntersectionOf first => ignoreCEList first
  | .ObjectUnionOf first => ignoreCEList first
  | .ObjectComplementOf first => ignoreCE first
  | .ObjectOneOf _ => true
  | .ObjectSomeValuesFrom _ bce => ignoreCE bce
  | .ObjectAllValuesFrom _ bce => ignoreCE bce
  | .ObjectHasValue _ _ => true
  | .ObjectMinCardinality _ _ bce => ignoreCE bce
  | .ObjectMaxCardinality _ _ bce => ignoreCE bce
  | .ObjectExactCardinality _ _ bce => ignoreCE bce
  | _ => false

def ignoreCEList : List ClassExpression → Bool
  | [] => false
  | x :: xs => ignoreCE x || ignoreCEList xs
end

def ignoreAtom : Atom → Bool
  | .ClassAtom pred arg => ignoreCE pred || ignoreIArg arg
  | .DifferentIndividualsAtom first second => ignoreIArg first || ignoreIArg second
  | .SameIndividualAtom first second => ignoreIArg first || ignoreIArg second
  | .ObjectPropertyAtom _ args => ignoreIArg args.1 || ignoreIArg args.2
  | _ => false

def ignoreAtomList : List Atom → Bool
  | [] => false
  | x :: xs => ignoreAtom x || ignoreAtomList xs

/-- The component-level exclusion filter. Unmatched variants fall
through to the final return False (line 235). -/
def ignore : Component → Bool
  | .OntologyID _ => true
  | .DocIRI _ => true
  | .OntologyAnn _ => true
  | .Import _ => true
  | .DeclareClass _ => true
  | .DeclareObjectProperty _ => true
  | .DeclareAnnotationProperty _ => true
  | .DeclareDataProperty _ => true
  | .DeclareNamedIndividual _ => true
  | .DeclareDatatype _ => true
  | .SubClassOf s p => ignoreCE s || ignoreCE p
  | .EquivalentClasses first => ignoreCEList first
  | .DisjointClasses first => ignoreCEList first
  | .DisjointUnion _ second => ignoreCEList second
  | .ObjectPropertyDomain _ ce => ignoreCE ce
  | .ObjectPropertyRange _ ce => ignoreCE ce
  | .HasKey ce _ => ignoreCE ce
  | .SameIndividual _ => true
  | .DifferentIndividuals _ => true
  | .ClassAssertion _ _ => true
  | .ObjectPropertyAssertion _ _ _ => true
  | .NegativeObjectPropertyAssertion _ _ _ => true
  | .DataPropertyAssertion _ _ _ => true
  | .NegativeDataPropertyAssertion _ _ _ => true
  | .AnnotationAssertion _ _ => true
  | .Rule head body => ignoreAtomList (head ++ body)
  | _ => false

/-! ## Canonicalizer (source: normalise, lines 288 to 406)

The single polymorphic Python function is embedded as one function per
embedded type; the per-branch structure below follows the source line
by line. The mutated Context is threaded explicitly; children are
normalised in the left-to-right order the Python constructor calls
evaluate their arguments. -/

def normaliseOPE : ObjectPropertyExpression → Context → ObjectPropertyExpression × Context
  | .ObjectProperty first, ctx =>
      let (s, ctx) := sub .objectPropertyK first ctx
      (.ObjectProperty s, ctx)
  | .InverseObjectProperty first, ctx =>
      let (s, ctx) := sub .objectPropertyK first ctx
      (.InverseObjectProperty s, ctx)

def normaliseOPEList : List ObjectPropertyExpression → Context → List ObjectPropertyExpression × Context
  | [], ctx => ([], ctx)
  | x :: xs, ctx =>
      let (x2, ctx) := normaliseOPE x ctx
      let (xs2, ctx) := normaliseOPEList xs ctx
      (x2 :: xs2, ctx)

/-- Canonicalization of a SWRL data argument: a Variable is substituted; a
literal matches no branch and is returned unchanged (line 406). -/
def normaliseDArg : DArg → Context → DArg × Context
  | .lit l, ctx => (.lit l, ctx)
  | .Variable v, ctx =>
      let (s, ctx) := sub .variableK v ctx
      (.Variable s, ctx)

/-- Canonicalization of a SWRL individual argument: a Variable is substituted;
an Individual matches no branch and is returned unchanged (line 406). -/
def normaliseIArg : IArg → Context → IArg × Context
  | .ind i, ctx => (.ind i, ctx)
  | .Variable v, ctx =>
      let (s, ctx) := sub .variableK v ctx
      (.Variable s, ctx)

/-- List comprehensions over DataProperty or AnnotationProperty entity
lists reach the leaf-entity branch of normalise, which is sub. -/
def subList (kind : EntityKind) : List IRI → Context → List IRI × Context
  | [], ctx => ([], ctx)
  | x :: xs, ctx =>
      let (x2, ctx) := sub kind x ctx
      let (xs2, ctx) := subList kind xs ctx
      (x2 :: xs2, ctx)

mutual
def normaliseCE : ClassExpression → Context → ClassExpression × Context
  | .Class first, ctx =>
      let (s, ctx) := sub .classK first ctx
      (.Class s, ctx)
  | .ObjectIntersectionOf first, ctx =>
      let (l, ctx) := normaliseCEList first ctx
      (.ObjectIntersectionOf l, ctx)
  | .ObjectUnionOf first, ctx =>
      let (l, ctx) := normaliseCEList first ctx
      (.ObjectUnionOf l, ctx)
  | .ObjectComplementOf first, ctx =>
      let (c, ctx) := normaliseCE first ctx
      (.ObjectComplementOf c, ctx)
  | .ObjectSomeValuesFrom ope bce, ctx =>
      let (p, ctx) := normaliseOPE ope ctx
      let (c, ctx) := normaliseCE bce ctx
      (.ObjectSomeValuesFrom p c, ctx)
  | .ObjectAllValuesFrom ope bce, ctx =>
      let (p, ctx) := normaliseOPE ope ctx
      let (c, ctx) := normaliseCE bce ctx
      (.ObjectAllValuesFrom p c, ctx)
  | .ObjectHasSelf first, ctx =>
      let (p, ctx) := normaliseOPE first ctx
      (.ObjectHasSelf p, ctx)
  | .ObjectMinCardinality n ope bce, ctx =>
      let (p, ctx) := normaliseOPE ope ctx
      let (c, ctx) := normaliseCE bce ctx
      (.ObjectMinCardinality n p c, ctx)
  | .ObjectMaxCardinality n ope bce, ctx =>
      let (p, ctx) := normaliseOPE ope ctx
      let (c, ctx) := normaliseCE bce ctx
      (.ObjectMaxCardinality n p c, ctx)
  | .ObjectExactCardinality n ope bce, ctx =>
      let (p, ctx) := normaliseOPE ope ctx
      let (c, ctx) := normaliseCE bce ctx
      (.ObjectExactCardinality n p c, ctx)
  | .DataSomeValuesFrom dp dr, ctx =>
      let (d, ctx) := sub .dataPropertyK dp ctx
      (.DataSomeValuesFrom d dr, ctx)
  | .DataAllValuesFrom dp dr, ctx =>
      let (d, ctx) := sub .dataPropertyK dp ctx
      (.DataAllValuesFrom d dr, ctx)
  | .DataMinCardinality n dp dr, ctx =>
      let (d, ctx) := sub .dataPropertyK dp ctx
      (.DataMinCardinality n d dr, ctx)
  | .DataMaxCardinality n dp dr, ctx =>
      let (d, ctx) := sub .dataPropertyK dp ctx
      (.DataMaxCardinality n d dr, ctx)
  | .DataExactCardinality n dp dr, ctx =>
      let (d, ctx) := sub .dataPropertyK dp ctx
      (.DataExactCardinality n d dr, ctx)
  | .ObjectOneOf first, ctx => (.ObjectOneOf first, ctx)
  | .ObjectHasValue ope i, ctx => (.ObjectHasValue ope i, ctx)
  | .DataHasValue dp l, ctx => (.DataHasValue dp l, ctx)

def normaliseCEList : List ClassExpression → Context → List ClassExpression × Context
  | [], ctx => ([], ctx)
  | x :: xs, ctx =>
      let (x2, ctx) := normaliseCE x ctx
      let (xs2, ctx) := normaliseCEList xs ctx
      (x2 :: xs2, ctx)
end

def normaliseDArgList : List DArg → Context → List DArg × Context
  | [], ctx => ([], ctx)
  | x :: xs, ctx =>
      let (x2, ctx) := normaliseDArg x ctx
      let (xs2, ctx) := normaliseDArgList xs ctx
      (x2 :: xs2, ctx)

def normaliseAtom : Atom → Context → Atom × Context
  | .BuiltInAtom pred args, ctx =>
      let (l, ctx) := normaliseDArgList args ctx
      (.BuiltInAtom pred l, ctx)
  | .ClassAtom pred arg, ctx =>
      let (p, ctx) := normaliseCE pred ctx
      let (a, ctx) := normaliseIArg arg ctx
      (.ClassAtom p a, ctx)
  | .DataPropertyAtom pred args, ctx =>
      let (p, ctx) := sub .dataPropertyK pred ctx
      let (a, ctx) := normaliseDArg args.1 ctx
      let (b, ctx) := normaliseDArg args.2 ctx
      (.DataPropertyAtom p (a, b), ctx)
  | .DifferentIndividualsAtom first second, ctx =>
      let (f, ctx) := normaliseIArg first ctx
      let (s, ctx) := normaliseIArg second ctx
      (.DifferentIndividualsAtom f s, ctx)
  | .ObjectPropertyAtom pred args, ctx =>
      let (p, ctx) := normaliseOPE pred ctx
      let (a, ctx) := normaliseIArg args.1 ctx
      let (b, ctx) := normaliseIArg args.2 ctx
      (.ObjectPropertyAtom p (a, b), ctx)
  | .SameIndividualAtom first second, ctx =>
      let (f, ctx) := normaliseIArg first ctx
      let (s, ctx) := normaliseIArg second ctx
      (.SameIndividualAtom f s, ctx)

def normaliseAtomList : List Atom → Context → List Atom × Context
  | [], ctx => ([], ctx)
  | x :: xs, ctx =>
      let (x2, ctx) := normaliseAtom x ctx
      let (xs2, ctx) := normaliseAtomList xs ctx
      (x2 :: xs2, ctx)

def normalisePE : PropertyExpression → Context → PropertyExpression × Context
  | .opeP o, ctx =>
      let (p, ctx) := normaliseOPE o ctx
      (.opeP p, ctx)
  | .dp d, ctx =>
      let (s, ctx) := sub .dataPropertyK d ctx
      (.dp s, ctx)
  | .ap a, ctx =>
      let (s, ctx) := sub .annotationPropertyK a ctx
      (.ap s, ctx)

def normalisePEList : List PropertyExpression → Context → List PropertyExpression × Context
  | [], ctx => ([], ctx)
  | x :: xs, ctx =>
      let (x2, ctx) := normalisePE x ctx
      let (xs2, ctx) := normalisePEList xs ctx
      (x2 :: xs2, ctx)

/-- The component-level canonicalizer. Unmatched variants are returned
unchanged (line 406). Note the ObjectPropertyRange branch: the source
(line 368) rebuilds it as an ObjectPropertyDomain node. -/
def normalise : Component → Context → Component × Context
  | .SubClassOf s p, ctx =>
      let (s2, ctx) := normaliseCE s ctx
      let (p2, ctx) := normaliseCE p ctx
      (.SubClassOf s2 p2, ctx)
  | .EquivalentClasses first, ctx =>
      let (l, ctx) := normaliseCEList first ctx
      (.EquivalentClasses l, ctx)
  | .DisjointClasses first, ctx =>
      let (l, ctx) := normaliseCEList first ctx
      (.DisjointClasses l, ctx)
  | .DisjointUnion first second, ctx =>
      let (f, ctx) := sub .classK first ctx
      let (l, ctx) := normaliseCEList second ctx
      (.DisjointUnion f l, ctx)
  | .SubObjectPropertyOf (.ope o) sup, ctx =>
      let (o2, ctx) := normaliseOPE o ctx
      let (p2, ctx) := normaliseOPE sup ctx
      (.SubObjectPropertyOf (.ope o2) p2, ctx)
  | .SubObjectPropertyOf (.chain l) sup, ctx =>
      let (l2, ctx) := normaliseOPEList l ctx
      let (p2, ctx) := normaliseOPE sup ctx
      (.SubObjectPropertyOf (.chain l2) p2, ctx)
  | .EquivalentObjectProperties first, ctx =>
      let (l, ctx) := normaliseOPEList first ctx
      (.EquivalentObjectProperties l, ctx)
  | .DisjointObjectProperties first, ctx =>
      let (l, ctx) := normaliseOPEList first ctx
      (.DisjointObjectProperties l, ctx)
  | .InverseObjectProperties first second, ctx =>
      let (f, ctx) := sub .objectPropertyK first ctx
      let (s, ctx) := sub .objectPropertyK second ctx
      (.InverseObjectProperties f s, ctx)
  | .ObjectPropertyDomain ope ce, ctx =>
      let (p, ctx) := normaliseOPE ope ctx
      let (c, ctx) := normaliseCE ce ctx
      (.ObjectPropertyDomain p c, ctx)
  | .ObjectPropertyRange ope ce, ctx =>
      let (p, ctx) := normaliseOPE ope ctx
      let (c, ctx) := normaliseCE ce ctx
      (.ObjectPropertyDomain p c, ctx)
  | .FunctionalObjectProperty first, ctx =>
      let (p, ctx) := normaliseOPE first ctx
      (.FunctionalObjectProperty p, ctx)
  | .InverseFunctionalObjectProperty first, ctx =>
      let (p, ctx) := normaliseOPE first ctx
      (.InverseFunctionalObjectProperty p, ctx)
  | .ReflexiveObjectProperty first, ctx =>
      let (p, ctx) := normaliseOPE first ctx
      (.ReflexiveObjectProperty p, ctx)
  | .IrreflexiveObjectProperty first, ctx =>
      let (p, ctx) := normaliseOPE first ctx
      (.IrreflexiveObjectProperty p, ctx)
  | .SymmetricObjectProperty first, ctx =>
      let (p, ctx) := normaliseOPE first ctx
      (.SymmetricObjectProperty p, ctx)
  | .AsymmetricObjectProperty first, ctx =>
      let (p, ctx) := normaliseOPE first ctx
      (.AsymmetricObjectProperty p, ctx)
  | .TransitiveObjectProperty first, ctx =>
      let (p, ctx) := normaliseOPE first ctx
      (.TransitiveObjectProperty p, ctx)
  | .SubDataPropertyOf s p, ctx =>
      let (s2, ctx) := sub .dataPropertyK s ctx
      let (p2, ctx) := sub .dataPropertyK p ctx
      (.SubDataPropertyOf s2 p2, ctx)
  | .EquivalentDataProperties first, ctx =>
      let (l, ctx) := subList .dataPropertyK first ctx
      (.EquivalentDataProperties l, ctx)
  | .DisjointDataProperties first, ctx =>
      let (l, ctx) := subList .dataPropertyK first ctx
      (.DisjointDataProperties l, ctx)
  | .DataPropertyDomain dp ce, ctx =>
      let (d, ctx) := sub .dataPropertyK dp ctx
      let (c, ctx) := normaliseCE ce ctx
      (.DataPropertyDomain d c, ctx)
  | .DataPropertyRange dp dr, ctx =>
      let (d, ctx) := sub .dataPropertyK dp ctx
      (.DataPropertyRange d dr, ctx)
  | .FunctionalDataProperty first, ctx =>
      let (d, ctx) := sub .dataPropertyK first ctx
      (.FunctionalDataProperty d, ctx)
  | .HasKey ce vpe, ctx =>
      let (c, ctx) := normaliseCE ce ctx
      let (l, ctx) := normalisePEList vpe ctx
      (.HasKey c l, ctx)
  | .SubAnnotationPropertyOf s p, ctx =>
      let (s2, ctx) := sub .annotationPropertyK s ctx
      let (p2, ctx) := sub .annotationPropertyK p ctx
      (.SubAnnotationPropertyOf s2 p2, ctx)
  | .AnnotationPropertyDomain ap iri, ctx =>
      let (a, ctx) := sub .annotationPropertyK ap ctx
      (.AnnotationPropertyDomain a iri, ctx)
  | .AnnotationPropertyRange ap iri, ctx =>
      let (a, ctx) := sub .annotationPropertyK ap ctx
      (.AnnotationPropertyRange a iri, ctx)
  | .Rule head body, ctx =>
      let (h, ctx) := normaliseAtomList head ctx
      let (b, ctx) := normaliseAtomList body ctx
      (.Rule h b, ctx)
  | v, ctx => (v, ctx)

/-! ## Renderer (source: to_ms, lines 17 to 136)

Where the Python f-strings interpolate a model object directly (via
str, not via to_ms) the printed text is defined by the pyhornedowl
library, outside this repository; those spots are modelled by the
py_str functions below as tagged text. The same applies to the
fall-through of to_ms (line 135 and 136: log an error, return
str(value)); no claim depends on the exact text of either. -/

def py_str_data_property (dp : IRI) : String := "DataProperty(" ++ dp ++ ")"

def py_str_individual : Individual → String
  | .NamedIndividual iri => "NamedIndividual(" ++ iri ++ ")"
  | .AnonymousIndividual id => "AnonymousIndividual(" ++ id ++ ")"

def py_str_ope : ObjectPropertyExpression → String
  | .ObjectProperty first => "ObjectProperty(" ++ first ++ ")"
  | .InverseObjectProperty first => "InverseObjectProperty(" ++ first ++ ")"

def to_msOPE : ObjectPropertyExpression → String
  | .ObjectProperty first => first
  | .InverseObjectProperty first => "not " ++ first

/-- Rendering of a SWRL data argument: a Variable hits the leaf-entity
branch (its identifier); a literal is unmatched and rendered by the
fall-through as its library str text, which is the string carried. -/
def to_msDArg : DArg → String
  | .lit l => l
  | .Variable v => v

/-- Rendering of a SWRL individual argument: a Variable hits the
leaf-entity branch; an Individual is unmatched and rendered by the
fall-through via its library str text. -/
def to_msIArg : IArg → String
  | .ind i => py_str_individual i
  | .Variable v => v

mutual
def to_msCE : ClassExpression → String
  | .Class first => first
  | .ObjectIntersectionOf first =>
      "(" ++ String.intercalate " and " (to_msCEList first) ++ ")"
  | .ObjectUnionOf first =>
      "(" ++ String.intercalate " or " (to_msCEList first) ++ ")"
  | .ObjectComplementOf first => "not (" ++ to_msCE first ++ ")"
  | .ObjectSomeValuesFrom ope bce =>
      "(" ++ to_msOPE ope ++ " some " ++ to_msCE bce ++ ")"
  | .ObjectAllValuesFrom ope bce =>
      "(" ++ to_msOPE ope ++ " only " ++ to_msCE bce ++ ")"
  | .ObjectHasSelf first => "(" ++ to_msOPE first ++ " Self)"
  | .ObjectMinCardinality n ope bce =>
      "(" ++ to_msOPE ope ++ " min " ++ toString n ++ " " ++ to_msCE bce ++ ")"
  | .ObjectMaxCardinality n ope bce =>
      "(" ++ to_msOPE ope ++ " max " ++ toString n ++ " " ++ to_msCE bce ++ ")"
  | .ObjectExactCardinality n ope bce =>
      "(" ++ to_msOPE ope ++ " exactly " ++ toString n ++ " " ++ to_msCE bce ++ ")"
  | .DataSomeValuesFrom dp dr =>
      "(" ++ py_str_data_property dp ++ " some " ++ dr ++ ")"
  | .DataAllValuesFrom dp dr =>
      "(" ++ py_str_data_property dp ++ " only " ++ dr ++ ")"
  | .DataMinCardinality n dp dr =>
      "(" ++ py_str_data_property dp ++ " min " ++ toString n ++ " " ++ dr ++ ")"
  | .DataMaxCardinality n dp dr =>
      "(" ++ py_str_data_property dp ++ " max " ++ toString n ++ " " ++ dr ++ ")"
  | .DataExactCardinality n dp dr =>
      "(" ++ py_str_data_property dp ++ " exactly " ++ toString n ++ " " ++ dr ++ ")"
  | .DataHasValue dp l =>
      "(" ++ py_str_data_property dp ++ " value " ++ l ++ ")"
  | .ObjectOneOf _ => "ObjectOneOf"
  | .ObjectHasValue _ _ => "ObjectHasValue"

def to_msCEList : List ClassExpression → List String
  | [] => []
  | x :: xs => to_msCE x :: to_msCEList xs
end

def to_msAtom : Atom → String
  | .BuiltInAtom pred args =>
      pred ++ "(" ++ String.intercalate ", " (args.map to_msDArg) ++ ")"
  | .ClassAtom pred arg => to_msCE pred ++ "(" ++ to_msIArg arg ++ ")"
  | .DataPropertyAtom pred args =>
      py_str_data_property pred ++ "(" ++
        String.intercalate ", " [to_msDArg args.1, to_msDArg args.2] ++ ")"
  | .DifferentIndividualsAtom first second =>
      "DifferentIndividuals(" ++ to_msIArg first ++ ", " ++ to_msIArg second ++ ")"
  | .ObjectPropertyAtom pred args =>
      py_str_ope pred ++ "(" ++
        String.intercalate ", " [to_msIArg args.1, to_msIArg args.2] ++ ")"
  | .SameIndividualAtom first second =>
      "SameIndividual(" ++ to_msIArg first ++ ", " ++ to_msIArg second ++ ")"

def to_msAtomList : List Atom → List String
  | [] => []
  | x :: xs => to_msAtom x :: to_msAtomList xs

def to_msOPEList : List ObjectPropertyExpression → List String
  | [] => []
  | x :: xs => to_msOPE x :: to_msOPEList xs

def to_msPE : PropertyExpression → String
  | .opeP o => to_msOPE o
  | .dp d => d
  | .ap a => a

def to_msPEList : List PropertyExpression → List String
  | [] => []
  | x :: xs => to_msPE x :: to_msPEList xs

/-- The component-level renderer. The final group of branches below
models the fall-through (lines 135 and 136) for the metadata variants
to_ms does not match: an error is logged and str(value) returned;
the exact library text is external, modelled as the variant tag. -/
def to_ms : Component → String
  | .SubClassOf sub sup =>
      "Class: " ++ to_msCE sub ++ " SubClassOf: " ++ to_msCE sup
  | .EquivalentClasses first =>
      "EquivalentClasses: " ++ String.intercalate ", " (to_msCEList first)
  | .DisjointClasses first =>
      "DisjointClasses: " ++ String.intercalate ", " (to_msCEList first)
  | .DisjointUnion first second =>
      "Class: " ++ first ++ " DisjointUnionOf: " ++
        String.intercalate ", " (to_msCEList second)
  | .SubObjectPropertyOf (.ope o) sup =>
      "ObjectProperty: " ++ to_msOPE o ++ " SubPropertyOf: " ++ to_msOPE sup
  | .SubObjectPropertyOf (.chain l) sup =>
      "ObjectProperty: " ++ to_msOPE sup ++ " SubPropertyChain: " ++
        String.intercalate " o " (to_msOPEList l)
  | .EquivalentObjectProperties first =>
      "EquivalentProperties: " ++ String.intercalate ", " (to_msOPEList first)
  | .DisjointObjectProperties first =>
      "DisjointProperties: " ++ String.intercalate ", " (to_msOPEList first)
  | .InverseObjectProperties first second =>
      "ObjectProperty: " ++ first ++ " InverseOf: " ++ second
  | .ObjectPropertyDomain ope ce =>
      "ObjectProperty: " ++ to_msOPE ope ++ " Domain: " ++ to_msCE ce
  | .ObjectPropertyRange ope ce =>
      "ObjectProperty: " ++ to_msOPE ope ++ " Range: " ++ to_msCE ce
  | .FunctionalObjectProperty first =>
      "ObjectProperty: " ++ to_msOPE first ++ " Characteristics: Functional"
  | .InverseFunctionalObjectProperty first =>
      "ObjectProperty: " ++ to_msOPE first ++ " Characteristics: InverseFunctional"
  | .ReflexiveObjectProperty first =>
      "ObjectProperty: " ++ to_msOPE first ++ " Characteristics: Reflexive"
  | .IrreflexiveObjectProperty first =>
      "ObjectProperty: " ++ to_msOPE first ++ " Characteristics: Irreflexive"
  | .SymmetricObjectProperty first =>
      "ObjectProperty: " ++ to_msOPE first ++ " Characteristics: Symmetric"
  | .AsymmetricObjectProperty first =>
      "ObjectProperty: " ++ to_msOPE first ++ " Characteristics: Asymmetric"
  | .TransitiveObjectProperty first =>
      "ObjectProperty: " ++ to_msOPE first ++ " Characteristics: Transitive"
  | .SubDataPropertyOf sub sup =>
      "DataProperty: " ++ sub ++ " SubPropertyOf: " ++ sup
  | .EquivalentDataProperties first =>
      "EquivalentProperties: " ++ String.intercalate ", " first
  | .DisjointDataProperties first =>
      "DisjointProperties: " ++ String.intercalate ", " first
  | .DataPropertyDomain dp ce =>
      "DataProperty: " ++ dp ++ " Domain: " ++ to_msCE ce
  | .DataPropertyRange dp dr =>
      "DataProperty: " ++ dp ++ " Range: " ++ dr
  | .FunctionalDataProperty first =>
      "DataProperty: " ++ first ++ " Characteristics: Functional"
  | .HasKey ce vpe =>
      "Class: " ++ to_msCE ce ++ " HasKey: " ++
        String.intercalate ", " (to_msPEList vpe)
  | .SubAnnotationPropertyOf sub sup =>
      "AnnotationProperty: " ++ sub ++ " SubPropertyOf: " ++ sup
  | .AnnotationPropertyDomain ap iri =>
      "AnnotationProperty: " ++ ap ++ " Domain: " ++ iri
  | .AnnotationPropertyRange ap iri =>
      "AnnotationProperty: " ++ ap ++ " Range: " ++ iri
  | .Rule head body =>
      "Rule: " ++ String.intercalate " and " (to_msAtomList head) ++ " -> " ++
        String.intercalate " and " (to_msAtomList body)
  | .OntologyID _ => "OntologyID"
  | .DocIRI _ => "DocIRI"
  | .OntologyAnn _ => "OntologyAnnotation"
  | .Import _ => "Import"
  | .DeclareClass _ => "DeclareClass"
  | .DeclareObjectProperty _ => "DeclareObjectProperty"
  | .DeclareAnnotationProperty _ => "DeclareAnnotationProperty"
  | .DeclareDataProperty _ => "DeclareDataProperty"
  | .DeclareNamedIndividual _ => "DeclareNamedIndividual"
  | .DeclareDatatype _ => "DeclareDatatype"
  | .SameIndividual _ => "SameIndividual"
  | .DifferentIndividuals _ => "DifferentIndividuals"
  | .ClassAssertion _ _ => "ClassAssertion"
  | .ObjectPropertyAssertion _ _ _ => "ObjectPropertyAssertion"
  | .NegativeObjectPropertyAssertion _ _ _ => "NegativeObjectPropertyAssertion"
  | .DataPropertyAssertion _ _ _ => "DataPropertyAssertion"
  | .NegativeDataPropertyAssertion _ _ _ => "NegativeDataPropertyAssertion"
  | .AnnotationAssertion _ _ => "AnnotationAssertion"

/-! ## Per-file analysis and aggregation (source: analyse_file, main) -/

/-- The loop body of analyse_file (lines 416 to 424): skip components
the filter excludes; canonicalize each retained component with a fresh
Context. -/
def retained_normalised : List Component → List Component
  | [] => []
  | a :: rest =>
      if ignore a then retained_normalised rest
      else (normalise a {}).1 :: retained_normalised rest

/-- The per-file analysis analyse_file (lines 409 to 426). Loading the ontology document is
external (open_ontology_from_file); its outcome for the given file is
passed in as an Except value. On a load failure the error is logged
with the file path and cause and the file contributes an empty
Counter; the Counter itself is represented by the list of retained
canonical components it counts. The first projection models the
logging.error call. -/
def analyse_file (file : String) (load : Except String (List Component)) :
    List String × List Component :=
  match load with
  | .error e => (["Failed to open ontology file " ++ file ++ ": " ++ e], [])
  | .ok comps => ([], retained_normalised comps)

/-- Aggregate output mode of main (lines 447 to 474): the per-file
Counters are merged by addition, which on the underlying multisets is
concatenation in input order. -/
def run_aggregate (inputs : List (String × Except String (List Component))) :
    List Component :=
  (inputs.map (fun p => (analyse_file p.1 p.2).2)).flatten

/-- The distinct keys of a Counter over the given multiset, in first
insertion order (Python dict order). -/
def counter_keys (l : List Component) : List Component :=
  l.foldl (fun acc x => if acc.contains x then acc else acc ++ [x]) []

/-- The (key, count) items of a Counter over the given multiset. -/
def counter_items (l : List Component) : List (Component × Nat) :=
  (counter_keys l).map (fun k => (k, l.count k))

/-! ## Nominal containment (specification-side predicate for the
filter-closure property) -/

mutual
/-- A class-expression subtree contains a nominal: an ObjectOneOf, an
ObjectHasValue, or any Individual entity. In the class-expression
grammar, Individual entities occur only as the members of ObjectOneOf
and the filler of ObjectHasValue, so those two variants are exactly
the places where an Individual can enter a class-expression subtree;
property operands and data ranges contain no Individuals. -/
def hasNominalCE : ClassExpression → Bool
  | .ObjectOneOf _ => true
  | .ObjectHasValue _ _ => true
  | .ObjectIntersectionOf first => hasNominalCEList first
  | .ObjectUnionOf first => hasNominalCEList first
  | .ObjectComplementOf first => hasNominalCE first
  | .ObjectSomeValuesFrom _ bce => hasNominalCE bce
  | .ObjectAllValuesFrom _ bce => hasNominalCE bce
  | .ObjectMinCardinality _ _ bce => hasNominalCE bce
  | .ObjectMaxCardinality _ _ bce => hasNominalCE bce
  | .ObjectExactCardinality _ _ bce => hasNominalCE bce
  | _ => false

def hasNominalCEList : List ClassExpression → Bool
  | [] => false
  | x :: xs => hasNominalCE x || hasNominalCEList xs
end

/-- The substitution map of one Context extends that of another:
every identifier already mapped keeps exactly its mapping. The
traversal invariant of the canonicalizer is that every Context it
produces extends the Context it was given. -/
def PreservesSubst (c1 c2 : Context) : Prop :=
  ∀ iri s, c1.substitutions.lookup iri = some s →
    c2.substitutions.lookup iri = some s

/-! # Theorems -/

/-! ## The bijective positional numbering -/

theorem _index_to_chars_fuel_irrel (choices : List Char) :
    ∀ f1 f2 index, index < f1 → index < f2 →
      _index_to_chars_fuel choices f1 index = _index_to_chars_fuel choices f2 index := by
  intro f1
  induction f1 with
  | zero => intro f2 index h1 h2; omega
  | succ f ih =>
      intro f2 index h1 h2
      cases f2 with
      | zero => omega
      | succ f2' =>
          simp only [_index_to_chars_fuel]
          by_cases hc : index / choices.length = 0
          · simp [hc]
          · simp only [if_neg hc]
            have hd1 : index / choices.length ≤ index := Nat.div_le_self _ _
            have hd2 : 0 < index / choices.length := Nat.pos_of_ne_zero hc
            have hlt : index / choices.length - 1 < index :=
              Nat.lt_of_lt_of_le (Nat.sub_lt hd2 Nat.one_pos) hd1
            rw [ih f2' (index / choices.length - 1) (by omega) (by omega)]

/-- The fuel-free unfolding equation: _index_to_chars satisfies the
loop-shaped recursion of the source. -/
theorem _index_to_chars_unfold (index : Nat) (choices : List Char) :
    _index_to_chars index choices =
      if index / choices.length = 0
      then [choices.getD (index % choices.length) 'A']
      else _index_to_chars (index / choices.length - 1) choices ++
        [choices.getD (index % choices.length) 'A'] := by
  unfold _index_to_chars
  rw [_index_to_chars_fuel]
  by_cases hc : index / choices.length = 0
  · simp [hc]
  · simp only [if_neg hc]
    have hd1 : index / choices.length ≤ index := Nat.div_le_self _ _
    have hd2 : 0 < index / choices.length := Nat.pos_of_ne_zero hc
    have hlt : index / choices.length - 1 < index :=
      Nat.lt_of_lt_of_le (Nat.sub_lt hd2 Nat.one_pos) hd1
    rw [_index_to_chars_fuel_irrel choices index (index / choices.length - 1 + 1)
      (index / choices.length - 1) (by omega) (by omega)]

theorem _index_to_chars_ne_nil (index : Nat) (choices : List Char) :
    _index_to_chars index choices ≠ [] := by
  rw [_index_to_chars_unfold]
  split <;> simp

theorem append_single_inj (l1 l2 : List Char) (a b : Char)
    (h : l1 ++ [a] = l2 ++ [b]) : l1 = l2 ∧ a = b := by
  have h1 := congrArg List.dropLast h
  have h2 := congrArg List.getLast? h
  simp at h1 h2
  exact ⟨h1, h2⟩

/-- Injectivity of the character-list form of the bijective numbering
over a duplicate-free nonempty alphabet. -/
theorem _index_to_chars_inj (choices : List Char)
    (hlen : 1 ≤ choices.length) (hnd : choices.Nodup) :
    ∀ i j : Nat, _index_to_chars i choices = _index_to_chars j choices → i = j := by
  intro i
  induction i using Nat.strong_induction_on with
  | _ i ih =>
      intro j h
      rw [_index_to_chars_unfold i, _index_to_chars_unfold j] at h
      have hmi : i % choices.length < choices.length := Nat.mod_lt _ (by omega)
      have hmj : j % choices.length < choices.length := Nat.mod_lt _ (by omega)
      rcases Decidable.em (i / choices.length = 0) with hi0 | hi0 <;>
        rcases Decidable.em (j / choices.length = 0) with hj0 | hj0
      · rw [if_pos hi0, if_pos hj0] at h
        have hc : choices.getD (i % choices.length) 'A'
            = choices.getD (j % choices.length) 'A' := by simpa using h
        rw [List.getD_eq_getElem choices 'A' hmi,
          List.getD_eq_getElem choices 'A' hmj] at hc
        have hmod := (List.Nodup.getElem_inj_iff hnd).1 hc
        have hi := Nat.div_add_mod i choices.length
        have hj := Nat.div_add_mod j choices.length
        rw [hi0] at hi
        rw [hj0] at hj
        omega
      · exfalso
        rw [if_pos hi0, if_neg hj0] at h
        have hp := (append_single_inj [] _ _ _ h).1
        exact _index_to_chars_ne_nil _ _ hp.symm
      · exfalso
        rw [if_neg hi0, if_pos hj0] at h
        have hp := (append_single_inj _ [] _ _ h).1
        exact _index_to_chars_ne_nil _ _ hp
      · rw [if_neg hi0, if_neg hj0] at h
        have hpre := (append_single_inj _ _ _ _ h).1
        have hc := (append_single_inj _ _ _ _ h).2
        rw [List.getD_eq_getElem choices 'A' hmi,
          List.getD_eq_getElem choices 'A' hmj] at hc
        have hmod := (List.Nodup.getElem_inj_iff hnd).1 hc
        have hd1 : i / choices.length ≤ i := Nat.div_le_self _ _
        have hdi : 0 < i / choices.length := Nat.pos_of_ne_zero hi0
        have hdj : 0 < j / choices.length := Nat.pos_of_ne_zero hj0
        have hlt : i / choices.length - 1 < i :=
          Nat.lt_of_lt_of_le (Nat.sub_lt hdi Nat.one_pos) hd1
        have hdiv : i / choices.length - 1 = j / choices.length - 1 :=
          ih (i / choices.length - 1) hlt (j / choices.length - 1) hpre
        have hi := Nat.div_add_mod i choices.length
        have hj := Nat.div_add_mod j choices.length
        have hdd : i / choices.length = j / choices.length := by omega
        rw [← hi, ← hj, hdd, hmod]

/-- Claim C7: for every alphabet of L >= 1 distinct symbols,
_index_to_str satisfies the loop-shaped recursion of the source (take
alphabet[i mod L], prepend it, continue with i div L - 1 until that is
negative, which happens exactly when i div L = 0), and the resulting
mapping is injective: distinct indices yield distinct strings. -/
theorem C7_index_to_str_bijective_numbering (choices : List Char)
    (hlen : 1 ≤ choices.length) (hnd : choices.Nodup) :
    (∀ index : Nat, _index_to_str index choices =
      if index / choices.length = 0
      then String.mk [choices.getD (index % choices.length) 'A']
      else _index_to_str (index / choices.length - 1) choices ++
        String.mk [choices.getD (index % choices.length) 'A']) ∧
    (∀ i j : Nat, i ≠ j → _index_to_str i choices ≠ _index_to_str j choices) := by
  constructor
  · intro index
    show String.mk (_index_to_chars index choices) = _
    rw [_index_to_chars_unfold index choices]
    by_cases h : index / choices.length = 0
    · rw [if_pos h, if_pos h]
    · rw [if_neg h, if_neg h]
      rfl
  · intro i j hne he
    apply hne
    apply _index_to_chars_inj choices hlen hnd
    exact congrArg String.data he

theorem C7_witness :
    1 ≤ (['A', 'B'] : List Char).length ∧ (['A', 'B'] : List Char).Nodup ∧
      (0 : Nat) ≠ 1 ∧ _index_to_str 0 ['A', 'B'] ≠ _index_to_str 1 ['A', 'B'] :=
  ⟨by decide, by decide, by decide,
    (C7_index_to_str_bijective_numbering ['A', 'B'] (by decide) (by decide)).2
      0 1 (by decide)⟩

/-- Claim C2 counterexample: the source class alphabet is built from
the end-exclusive range(ord(A), ord(O)) and so has the 14 letters A to
N, not 15. Index 14 of the class sequence is therefore AA (not O as
the claim states) and index 15 is AB (not AA). -/
theorem C2_counterexample :
    class_alphabet.length = 14 ∧ class_generator 14 ≠ "O" ∧
      class_generator 15 ≠ "AA" ∧ class_generator 14 = "AA" ∧
      class_generator 15 = "AB" := by decide

/-- Claim C2 (amended): the class sequence is the bijective numbering
over the 14-letter alphabet A to N, so index 13 yields N and index 14
yields AA; the variable sequence is decimal-suffixed, index 0 yielding
X0; the property sequence uses the 8-symbol alphabet R,S,T,U,V,W,P,Q
in that fixed order, index 0 yielding R. -/
theorem C2_naming_boundaries :
    class_alphabet = ['A', 'B', 'C', 'D', 'E', 'F', 'G', 'H', 'I', 'J', 'K', 'L', 'M', 'N'] ∧
    class_generator 13 = "N" ∧ class_generator 14 = "AA" ∧
    var_generator 0 = "X0" ∧
    property_alphabet = ['R', 'S', 'T', 'U', 'V', 'W', 'P', 'Q'] ∧
    property_generator 0 = "R" := by decide

/-- Claim C1: evaluating normalise at an ObjectPropertyRange node. The
source branch (lines 367 and 368) rebuilds ObjectPropertyRange as an
ObjectPropertyDomain node, so the same-variant shape preservation the
claim states fails at exactly this variant: the concrete input
ObjectPropertyRange(ObjectProperty(http://ex.org/r), Class(http://ex.org/c))
canonicalizes to ObjectPropertyDomain(R, A), and in general every
ObjectPropertyRange input produces an ObjectPropertyDomain node with
the recursively canonicalized children. -/
theorem C1_objectPropertyRange_eval :
    ((normalise (.ObjectPropertyRange (.ObjectProperty "http://ex.org/r")
        (.Class "http://ex.org/c")) {}).1
      = Component.ObjectPropertyDomain (.ObjectProperty "R") (.Class "A")) ∧
    (∀ ope ce ctx, (normalise (.ObjectPropertyRange ope ce) ctx).1
      = Component.ObjectPropertyDomain (normaliseOPE ope ctx).1
          (normaliseCE ce (normaliseOPE ope ctx).2).1) := by
  refine ⟨rfl, fun ope ce ctx => rfl⟩

/-- Claim C3 counterexample: two distinct retained axioms, each
canonicalized with its own fresh Context, yield distinct canonical
nodes with character-equal rendered strings: an
EquivalentObjectProperties and an EquivalentDataProperties both render
as EquivalentProperties: R. Keying the frequency map by canonicalized
node and keying it by rendered string therefore disagree, and the
renderer is not injective on canonical retained axioms. -/
theorem C3_counterexample :
    ignore (Component.EquivalentObjectProperties [.ObjectProperty "http://ex.org/p"]) = false ∧
    ignore (Component.EquivalentDataProperties ["http://ex.org/p"]) = false ∧
    (normalise (Component.EquivalentObjectProperties [.ObjectProperty "http://ex.org/p"]) {}).1
      = Component.EquivalentObjectProperties [.ObjectProperty "R"] ∧
    (normalise (Component.EquivalentDataProperties ["http://ex.org/p"]) {}).1
      = Component.EquivalentDataProperties ["R"] ∧
    to_ms (Component.EquivalentObjectProperties [.ObjectProperty "R"])
      = to_ms (Component.EquivalentDataProperties ["R"]) ∧
    Component.EquivalentObjectProperties [.ObjectProperty "R"]
      ≠ Component.EquivalentDataProperties ["R"] := by
  refine ⟨rfl, rfl, rfl, rfl, rfl, fun h => Component.noConfusion h⟩

/-- Claim C3 (amended): keying the frequency map by the canonicalized
node is at least as fine as keying it by the rendered string — equal
nodes always render to equal strings — but it is strictly finer: the
renderer is not injective on canonical retained axioms (object- and
data-property axiom variants share rendering templates, see the
counterexample), so the Counter over nodes can produce two rows where
grouping by rendered string would produce one. -/
theorem C3_node_key_refines_string_key :
    ∀ a b : Component, a = b → to_ms a = to_ms b :=
  fun _ _ h => congrArg to_ms h

theorem C3_witness :
    to_ms (Component.SubClassOf (.Class "A") (.Class "B"))
      = to_ms (Component.SubClassOf (.Class "A") (.Class "B")) :=
  C3_node_key_refines_string_key _ _ rfl

/-- Claim C4: the two axioms SubClassOf(Class(http://ex.org/A),
Class(http://ex.org/B)) and SubClassOf(Class(http://ex.org/X),
Class(http://ex.org/Y)), each canonicalized with its own fresh
Context, are equal as canonical nodes, both render to the single
string Class: A SubClassOf: B, and in aggregate mode over two input
units the Counter holds exactly one row with count 2. -/
theorem C4_aggregate_collapse :
    to_ms (normalise (Component.SubClassOf (.Class "http://ex.org/A")
        (.Class "http://ex.org/B")) {}).1 = "Class: A SubClassOf: B" ∧
    to_ms (normalise (Component.SubClassOf (.Class "http://ex.org/X")
        (.Class "http://ex.org/Y")) {}).1 = "Class: A SubClassOf: B" ∧
    (normalise (Component.SubClassOf (.Class "http://ex.org/A")
        (.Class "http://ex.org/B")) {}).1
      = (normalise (Component.SubClassOf (.Class "http://ex.org/X")
          (.Class "http://ex.org/Y")) {}).1 ∧
    counter_items (run_aggregate
      [("file1.owl", .ok [Component.SubClassOf (.Class "http://ex.org/A")
          (.Class "http://ex.org/B")]),
       ("file2.owl", .ok [Component.SubClassOf (.Class "http://ex.org/X")
          (.Class "http://ex.org/Y")])])
      = [((normalise (Component.SubClassOf (.Class "http://ex.org/A")
          (.Class "http://ex.org/B")) {}).1, 2)] := by
  refine ⟨by decide, by decide, rfl, rfl⟩

mutual
theorem ignoreCE_of_hasNominal : ∀ ce, hasNominalCE ce = true → ignoreCE ce = true := by
  intro ce h
  cases ce with
  | ObjectOneOf l => rfl
  | ObjectHasValue ope i => rfl
  | ObjectIntersectionOf first =>
      simp only [hasNominalCE] at h
      simp only [ignoreCE]
      exact ignoreCEList_of_hasNominal first h
  | ObjectUnionOf first =>
      simp only [hasNominalCE] at h
      simp only [ignoreCE]
      exact ignoreCEList_of_hasNominal first h
  | ObjectComplementOf first =>
      simp only [hasNominalCE] at h
      simp only [ignoreCE]
      exact ignoreCE_of_hasNominal first h
  | ObjectSomeValuesFrom ope bce =>
      simp only [hasNominalCE] at h
      simp only [ignoreCE]
      exact ignoreCE_of_hasNominal bce h
  | ObjectAllValuesFrom ope bce =>
      simp only [hasNominalCE] at h
      simp only [ignoreCE]
      exact ignoreCE_of_hasNominal bce h
  | ObjectMinCardinality n ope bce =>
      simp only [hasNominalCE] at h
      simp only [ignoreCE]
      exact ignoreCE_of_hasNominal bce h
  | ObjectMaxCardinality n ope bce =>
      simp only [hasNominalCE] at h
      simp only [ignoreCE]
      exact ignoreCE_of_hasNominal bce h
  | ObjectExactCardinality n ope bce =>
      simp only [hasNominalCE] at h
      simp only [ignoreCE]
      exact ignoreCE_of_hasNominal bce h
  | Class first => simp [hasNominalCE] at h
  | ObjectHasSelf first => simp [hasNominalCE] at h
  | DataSomeValuesFrom dp dr => simp [hasNominalCE] at h
  | DataAllValuesFrom dp dr => simp [hasNominalCE] at h
  | DataHasValue dp l => simp [hasNominalCE] at h
  | DataMinCardinality n dp dr => simp [hasNominalCE] at h
  | DataMaxCardinality n dp dr => simp [hasNominalCE] at h
  | DataExactCardinality n dp dr => simp [hasNominalCE] at h

theorem ignoreCEList_of_hasNominal :
    ∀ l, hasNominalCEList l = true → ignoreCEList l = true := by
  intro l h
  cases l with
  | nil => simp [hasNominalCEList] at h
  | cons x xs =>
      simp only [hasNominalCEList, Bool.or_eq_true] at h
      simp only [ignoreCEList, Bool.or_eq_true]
      cases h with
      | inl hx => exact Or.inl (ignoreCE_of_hasNominal x hx)
      | inr hxs => exact Or.inr (ignoreCEList_of_hasNominal xs hxs)
end

/-- Claim C6: the exclusion filter is closed under nesting with
respect to nominals: every class expression whose subtree contains an
ObjectOneOf, an ObjectHasValue, or an Individual entity (which, in the
class-expression grammar, can occur only inside those two variants) is
ignored, at any nesting depth. -/
theorem C6_filter_closed_under_nominals :
    ∀ ce : ClassExpression, hasNominalCE ce = true → ignoreCE ce = true :=
  ignoreCE_of_hasNominal

theorem C6_witness :
    hasNominalCE (.ObjectComplementOf (.ObjectSomeValuesFrom
      (.ObjectProperty "http://r") (.ObjectOneOf [.NamedIndividual "http://i"]))) = true ∧
    ignoreCE (.ObjectComplementOf (.ObjectSomeValuesFrom
      (.ObjectProperty "http://r") (.ObjectOneOf [.NamedIndividual "http://i"]))) = true :=
  ⟨rfl, C6_filter_closed_under_nominals _ rfl⟩

/-- Claim C8: the filter and the canonicalizer are total Lean functions
over the closed variant set (no error outcome exists in their types),
and on every variant not matched by an explicit source branch the
filter returns false (the value is retained) and the canonicalizer
returns its argument with the Context unchanged. The conjuncts list
exactly the fall-through variants of each function. -/
theorem C8_total_defaults :
    (∀ l ctx, normaliseCE (.ObjectOneOf l) ctx = (.ObjectOneOf l, ctx)) ∧
    (∀ ope i ctx, normaliseCE (.ObjectHasValue ope i) ctx = (.ObjectHasValue ope i, ctx)) ∧
    (∀ dp l ctx, normaliseCE (.DataHasValue dp l) ctx = (.DataHasValue dp l, ctx)) ∧
    (∀ l ctx, normaliseDArg (.lit l) ctx = (.lit l, ctx)) ∧
    (∀ i ctx, normaliseIArg (.ind i) ctx = (.ind i, ctx)) ∧
    (∀ p ctx, normalise (.OntologyID p) ctx = (.OntologyID p, ctx)) ∧
    (∀ i ctx, normalise (.DocIRI i) ctx = (.DocIRI i, ctx)) ∧
    (∀ p ctx, normalise (.OntologyAnn p) ctx = (.OntologyAnn p, ctx)) ∧
    (∀ i ctx, normalise (.Import i) ctx = (.Import i, ctx)) ∧
    (∀ i ctx, normalise (.DeclareClass i) ctx = (.DeclareClass i, ctx)) ∧
    (∀ i ctx, normalise (.DeclareObjectProperty i) ctx = (.DeclareObjectProperty i, ctx)) ∧
    (∀ i ctx, normalise (.DeclareAnnotationProperty i) ctx = (.DeclareAnnotationProperty i, ctx)) ∧
    (∀ i ctx, normalise (.DeclareDataProperty i) ctx = (.DeclareDataProperty i, ctx)) ∧
    (∀ i ctx, normalise (.DeclareNamedIndividual i) ctx = (.DeclareNamedIndividual i, ctx)) ∧
    (∀ i ctx, normalise (.DeclareDatatype i) ctx = (.DeclareDatatype i, ctx)) ∧
    (∀ l ctx, normalise (.SameIndividual l) ctx = (.SameIndividual l, ctx)) ∧
    (∀ l ctx, normalise (.DifferentIndividuals l) ctx = (.DifferentIndividuals l, ctx)) ∧
    (∀ ce i ctx, normalise (.ClassAssertion ce i) ctx = (.ClassAssertion ce i, ctx)) ∧
    (∀ ope s t ctx, normalise (.ObjectPropertyAssertion ope s t) ctx
      = (.ObjectPropertyAssertion ope s t, ctx)) ∧
    (∀ ope s t ctx, normalise (.NegativeObjectPropertyAssertion ope s t) ctx
      = (.NegativeObjectPropertyAssertion ope s t, ctx)) ∧
    (∀ dp s t ctx, normalise (.DataPropertyAssertion dp s t) ctx
      = (.DataPropertyAssertion dp s t, ctx)) ∧
    (∀ dp s t ctx, normalise (.NegativeDataPropertyAssertion dp s t) ctx
      = (.NegativeDataPropertyAssertion dp s t, ctx)) ∧
    (∀ s p ctx, normalise (.AnnotationAssertion s p) ctx = (.AnnotationAssertion s p, ctx)) ∧
    (∀ iri, ignoreCE (.Class iri) = false) ∧
    (∀ ope, ignoreCE (.ObjectHasSelf ope) = false) ∧
    (∀ dp dr, ignoreCE (.DataSomeValuesFrom dp dr) = false) ∧
    (∀ dp dr, ignoreCE (.DataAllValuesFrom dp dr) = false) ∧
    (∀ dp l, ignoreCE (.DataHasValue dp l) = false) ∧
    (∀ n dp dr, ignoreCE (.DataMinCardinality n dp dr) = false) ∧
    (∀ n dp dr, ignoreCE (.DataMaxCardinality n dp dr) = false) ∧
    (∀ n dp dr, ignoreCE (.DataExactCardinality n dp dr) = false) ∧
    (∀ p a, ignoreAtom (.BuiltInAtom p a) = false) ∧
    (∀ p a, ignoreAtom (.DataPropertyAtom p a) = false) ∧
    (∀ v, ignoreIArg (.Variable v) = false) ∧
    (∀ s p, ignore (.SubObjectPropertyOf s p) = false) ∧
    (∀ l, ignore (.EquivalentObjectProperties l) = false) ∧
    (∀ l, ignore (.DisjointObjectProperties l) = false) ∧
    (∀ f s, ignore (.InverseObjectProperties f s) = false) ∧
    (∀ p, ignore (.FunctionalObjectProperty p) = false) ∧
    (∀ p, ignore (.InverseFunctionalObjectProperty p) = false) ∧
    (∀ p, ignore (.ReflexiveObjectProperty p) = false) ∧
    (∀ p, ignore (.IrreflexiveObjectProperty p) = false) ∧
    (∀ p, ignore (.SymmetricObjectProperty p) = false) ∧
    (∀ p, ignore (.AsymmetricObjectProperty p) = false) ∧
    (∀ p, ignore (.TransitiveObjectProperty p) = false) ∧
    (∀ s p, ignore (.SubDataPropertyOf s p) = false) ∧
    (∀ l, ignore (.EquivalentDataProperties l) = false) ∧
    (∀ l, ignore (.DisjointDataProperties l) = false) ∧
    (∀ dp ce, ignore (.DataPropertyDomain dp ce) = false) ∧
    (∀ dp dr, ignore (.DataPropertyRange dp dr) = false) ∧
    (∀ p, ignore (.FunctionalDataProperty p) = false) ∧
    (∀ s p, ignore (.SubAnnotationPropertyOf s p) = false) ∧
    (∀ a i, ignore (.AnnotationPropertyDomain a i) = false) ∧
    (∀ a i, ignore (.AnnotationPropertyRange a i) = false) := by
  repeat' apply And.intro
  all_goals intros
  all_goals rfl

/-- Claim C9: a document-load failure is logged with the file path and
the underlying cause, that file contributes an empty frequency table,
and in aggregate mode inserting a failing file anywhere in the input
list leaves the whole aggregate multiset, hence every count, exactly
as it would have been without that file: the run never aborts and the
other files' counts are unchanged. -/
theorem C9_load_failure_isolated :
    (∀ file e, (analyse_file file (.error e)).2 = []) ∧
    (∀ file e, (analyse_file file (.error e)).1
      = ["Failed to open ontology file " ++ file ++ ": " ++ e]) ∧
    (∀ pre post file e,
      run_aggregate (pre ++ [(file, .error e)] ++ post) = run_aggregate (pre ++ post)) ∧
    (∀ pre post file e c,
      (run_aggregate (pre ++ [(file, .error e)] ++ post)).count c
        = (run_aggregate (pre ++ post)).count c) := by
  have hrun : ∀ pre post file e,
      run_aggregate (pre ++ [(file, .error e)] ++ post) = run_aggregate (pre ++ post) := by
    intro pre post file e
    simp [run_aggregate, analyse_file]
  exact ⟨fun _ _ => rfl, fun _ _ => rfl, hrun,
    fun pre post file e c => by rw [hrun pre post file e]⟩

/-! ## Context invariants: stability and monotone growth of the
substitution map -/

theorem preservesSubst_refl (c : Context) : PreservesSubst c c :=
  fun _ _ h => h

theorem preservesSubst_trans {a b c : Context}
    (h1 : PreservesSubst a b) (h2 : PreservesSubst b c) : PreservesSubst a c :=
  fun i s h => h2 i s (h1 i s h)

theorem bump_substitutions (k : EntityKind) (ctx : Context) :
    (bump k ctx).substitutions = ctx.substitutions := by
  cases k <;> rfl

/-- An already-seen identifier is resolved from the map, with the
Context returned untouched. -/
theorem sub_lookup_hit (k : EntityKind) (iri : IRI) (ctx : Context) (s : String)
    (h : ctx.substitutions.lookup iri = some s) : sub k iri ctx = (s, ctx) := by
  simp [sub, h]

/-- A previously unseen identifier is assigned the next name of the
sequence matching its kind; the matching generator advances by one and
the mapping is recorded. -/
theorem sub_fresh (k : EntityKind) (iri : IRI) (ctx : Context)
    (h : ctx.substitutions.lookup iri = none) :
    sub k iri ctx = (next_name k ctx,
      { bump k ctx with
          substitutions := (iri, next_name k ctx) :: ctx.substitutions }) := by
  simp [sub, h, bump_substitutions]

theorem sub_lookup_after_fresh (k : EntityKind) (iri : IRI) (ctx : Context)
    (h : ctx.substitutions.lookup iri = none) :
    (sub k iri ctx).2.substitutions.lookup iri = some (next_name k ctx) := by
  rw [sub_fresh k iri ctx h]
  simp [List.lookup]

theorem sub_preserves (k : EntityKind) (i : IRI) (ctx : Context) :
    PreservesSubst ctx (sub k i ctx).2 := by
  intro iri s h
  cases hl : ctx.substitutions.lookup i with
  | some v =>
      rw [sub_lookup_hit k i ctx v hl]
      exact h
  | none =>
      have hne : (iri == i) = false := by
        refine beq_eq_false_iff_ne.mpr ?_
        intro he
        rw [he] at h
        rw [h] at hl
        cases hl
      rw [sub_fresh k i ctx hl]
      simp only [List.lookup, hne]
      exact h

theorem normaliseOPE_preserves (v : ObjectPropertyExpression) (ctx : Context) :
    PreservesSubst ctx (normaliseOPE v ctx).2 := by
  cases v with
  | ObjectProperty first => exact sub_preserves .objectPropertyK first ctx
  | InverseObjectProperty first => exact sub_preserves .objectPropertyK first ctx

theorem normaliseOPEList_preserves (l : List ObjectPropertyExpression) :
    ∀ ctx, PreservesSubst ctx (normaliseOPEList l ctx).2 := by
  induction l with
  | nil => exact fun ctx => preservesSubst_refl ctx
  | cons x xs ih =>
      intro ctx
      exact preservesSubst_trans (normaliseOPE_preserves x ctx) (ih _)

theorem normaliseDArg_preserves (a : DArg) (ctx : Context) :
    PreservesSubst ctx (normaliseDArg a ctx).2 := by
  cases a with
  | lit l => exact preservesSubst_refl ctx
  | Variable v => exact sub_preserves .variableK v ctx

theorem normaliseIArg_preserves (a : IArg) (ctx : Context) :
    PreservesSubst ctx (normaliseIArg a ctx).2 := by
  cases a with
  | ind i => exact preservesSubst_refl ctx
  | Variable v => exact sub_preserves .variableK v ctx

theorem normaliseDArgList_preserves (l : List DArg) :
    ∀ ctx, PreservesSubst ctx (normaliseDArgList l ctx).2 := by
  induction l with
  | nil => exact fun ctx => preservesSubst_refl ctx
  | cons x xs ih =>
      intro ctx
      exact preservesSubst_trans (normaliseDArg_preserves x ctx) (ih _)

theorem subList_preserves (k : EntityKind) (l : List IRI) :
    ∀ ctx, PreservesSubst ctx (subList k l ctx).2 := by
  induction l with
  | nil => exact fun ctx => preservesSubst_refl ctx
  | cons x xs ih =>
      intro ctx
      exact preservesSubst_trans (sub_preserves k x ctx) (ih _)

mutual
theorem normaliseCE_preserves :
    ∀ ce ctx, PreservesSubst ctx (normaliseCE ce ctx).2 := by
  intro ce ctx
  cases ce with
  | Class first => exact sub_preserves .classK first ctx
  | ObjectIntersectionOf first => exact normaliseCEList_preserves first ctx
  | ObjectUnionOf first => exact normaliseCEList_preserves first ctx
  | ObjectComplementOf first => exact normaliseCE_preserves first ctx
  | ObjectOneOf first => exact preservesSubst_refl ctx
  | ObjectSomeValuesFrom ope bce =>
      exact preservesSubst_trans (normaliseOPE_preserves ope ctx)
        (normaliseCE_preserves bce _)
  | ObjectAllValuesFrom ope bce =>
      exact preservesSubst_trans (normaliseOPE_preserves ope ctx)
        (normaliseCE_preserves bce _)
  | ObjectHasValue ope i => exact preservesSubst_refl ctx
  | ObjectHasSelf first => exact normaliseOPE_preserves first ctx
  | ObjectMinCardinality n ope bce =>
      exact preservesSubst_trans (normaliseOPE_preserves ope ctx)
        (normaliseCE_preserves bce _)
  | ObjectMaxCardinality n ope bce =>
      exact preservesSubst_trans (normaliseOPE_preserves ope ctx)
        (normaliseCE_preserves bce _)
  | ObjectExactCardinality n ope bce =>
      exact preservesSubst_trans (normaliseOPE_preserves ope ctx)
        (normaliseCE_preserves bce _)
  | DataSomeValuesFrom dp dr => exact sub_preserves .dataPropertyK dp ctx
  | DataAllValuesFrom dp dr => exact sub_preserves .dataPropertyK dp ctx
  | DataHasValue dp l => exact preservesSubst_refl ctx
  | DataMinCardinality n dp dr => exact sub_preserves .dataPropertyK dp ctx
  | DataMaxCardinality n dp dr => exact sub_preserves .dataPropertyK dp ctx
  | DataExactCardinality n dp dr => exact sub_preserves .dataPropertyK dp ctx

theorem normaliseCEList_preserves :
    ∀ l ctx, PreservesSubst ctx (normaliseCEList l ctx).2 := by
  intro l ctx
  cases l with
  | nil => exact preservesSubst_refl ctx
  | cons x xs =>
      exact preservesSubst_trans (normaliseCE_preserves x ctx)
        (normaliseCEList_preserves xs _)
end

theorem normaliseAtom_preserves (a : Atom) (ctx : Context) :
    PreservesSubst ctx (normaliseAtom a ctx).2 := by
  cases a with
  | BuiltInAtom pred args => exact normaliseDArgList_preserves args ctx
  | ClassAtom pred arg =>
      exact preservesSubst_trans (normaliseCE_preserves pred ctx)
        (normaliseIArg_preserves arg _)
  | DataPropertyAtom pred args =>
      exact preservesSubst_trans (sub_preserves .dataPropertyK pred ctx)
        (preservesSubst_trans (normaliseDArg_preserves args.1 _)
          (normaliseDArg_preserves args.2 _))
  | DifferentIndividualsAtom first second =>
      exact preservesSubst_trans (normaliseIArg_preserves first ctx)
        (normaliseIArg_preserves second _)
  | ObjectPropertyAtom pred args =>
      exact preservesSubst_trans (normaliseOPE_preserves pred ctx)
        (preservesSubst_trans (normaliseIArg_preserves args.1 _)
          (normaliseIArg_preserves args.2 _))
  | SameIndividualAtom first second =>
      exact preservesSubst_trans (normaliseIArg_preserves first ctx)
        (normaliseIArg_preserves second _)

theorem normaliseAtomList_preserves (l : List Atom) :
    ∀ ctx, PreservesSubst ctx (normaliseAtomList l ctx).2 := by
  induction l with
  | nil => exact fun ctx => preservesSubst_refl ctx
  | cons x xs ih =>
      intro ctx
      exact preservesSubst_trans (normaliseAtom_preserves x ctx) (ih _)

theorem normalisePE_preserves (p : PropertyExpression) (ctx : Context) :
    PreservesSubst ctx (normalisePE p ctx).2 := by
  cases p with
  | opeP o => exact normaliseOPE_preserves o ctx
  | dp d => exact sub_preserves .dataPropertyK d ctx
  | ap a => exact sub_preserves .annotationPropertyK a ctx

theorem normalisePEList_preserves (l : List PropertyExpression) :
    ∀ ctx, PreservesSubst ctx (normalisePEList l ctx).2 := by
  induction l with
  | nil => exact fun ctx => preservesSubst_refl ctx
  | cons x xs ih =>
      intro ctx
      exact preservesSubst_trans (normalisePE_preserves x ctx) (ih _)

theorem normalise_preserves (c : Component) (ctx : Context) :
    PreservesSubst ctx (normalise c ctx).2 := by
  cases c with
  | OntologyID p => exact preservesSubst_refl ctx
  | DocIRI i => exact preservesSubst_refl ctx
  | OntologyAnn p => exact preservesSubst_refl ctx
  | Import i => exact preservesSubst_refl ctx
  | DeclareClass i => exact preservesSubst_refl ctx
  | DeclareObjectProperty i => exact preservesSubst_refl ctx
  | DeclareAnnotationProperty i => exact preservesSubst_refl ctx
  | DeclareDataProperty i => exact preservesSubst_refl ctx
  | DeclareNamedIndividual i => exact preservesSubst_refl ctx
  | DeclareDatatype i => exact preservesSubst_refl ctx
  | SubClassOf s p =>
      exact preservesSubst_trans (normaliseCE_preserves s ctx)
        (normaliseCE_preserves p _)
  | EquivalentClasses first => exact normaliseCEList_preserves first ctx
  | DisjointClasses first => exact normaliseCEList_preserves first ctx
  | DisjointUnion first second =>
      exact preservesSubst_trans (sub_preserves .classK first ctx)
        (normaliseCEList_preserves second _)
  | SubObjectPropertyOf s p =>
      cases s with
      | ope o =>
          exact preservesSubst_trans (normaliseOPE_preserves o ctx)
            (normaliseOPE_preserves p _)
      | chain l =>
          exact preservesSubst_trans (normaliseOPEList_preserves l ctx)
            (normaliseOPE_preserves p _)
  | EquivalentObjectProperties first => exact normaliseOPEList_preserves first ctx
  | DisjointObjectProperties first => exact normaliseOPEList_preserves first ctx
  | InverseObjectProperties first second =>
      exact preservesSubst_trans (sub_preserves .objectPropertyK first ctx)
        (sub_preserves .objectPropertyK second _)
  | ObjectPropertyDomain ope ce =>
      exact preservesSubst_trans (normaliseOPE_preserves ope ctx)
        (normaliseCE_preserves ce _)
  | ObjectPropertyRange ope ce =>
      exact preservesSubst_trans (normaliseOPE_preserves ope ctx)
        (normaliseCE_preserves ce _)
  | FunctionalObjectProperty first => exact normaliseOPE_preserves first ctx
  | InverseFunctionalObjectProperty first => exact normaliseOPE_preserves first ctx
  | ReflexiveObjectProperty first => exact normaliseOPE_preserves first ctx
  | IrreflexiveObjectProperty first => exact normaliseOPE_preserves first ctx
  | SymmetricObjectProperty first => exact normaliseOPE_preserves first ctx
  | AsymmetricObjectProperty first => exact normaliseOPE_preserves first ctx
  | TransitiveObjectProperty first => exact normaliseOPE_preserves first ctx
  | SubDataPropertyOf s p =>
      exact preservesSubst_trans (sub_preserves .dataPropertyK s ctx)
        (sub_preserves .dataPropertyK p _)
  | EquivalentDataProperties first => exact subList_preserves .dataPropertyK first ctx
  | DisjointDataProperties first => exact subList_preserves .dataPropertyK first ctx
  | DataPropertyDomain dp ce =>
      exact preservesSubst_trans (sub_preserves .dataPropertyK dp ctx)
        (normaliseCE_preserves ce _)
  | DataPropertyRange dp dr => exact sub_preserves .dataPropertyK dp ctx
  | FunctionalDataProperty first => exact sub_preserves .dataPropertyK first ctx
  | HasKey ce vpe =>
      exact preservesSubst_trans (normaliseCE_preserves ce ctx)
        (normalisePEList_preserves vpe _)
  | SubAnnotationPropertyOf s p =>
      exact preservesSubst_trans (sub_preserves .annotationPropertyK s ctx)
        (sub_preserves .annotationPropertyK p _)
  | AnnotationPropertyDomain ap iri => exact sub_preserves .annotationPropertyK ap ctx
  | AnnotationPropertyRange ap iri => exact sub_preserves .annotationPropertyK ap ctx
  | SameIndividual first => exact preservesSubst_refl ctx
  | DifferentIndividuals first => exact preservesSubst_refl ctx
  | ClassAssertion ce i => exact preservesSubst_refl ctx
  | ObjectPropertyAssertion ope s t => exact preservesSubst_refl ctx
  | NegativeObjectPropertyAssertion ope s t => exact preservesSubst_refl ctx
  | DataPropertyAssertion dp s t => exact preservesSubst_refl ctx
  | NegativeDataPropertyAssertion dp s t => exact preservesSubst_refl ctx
  | AnnotationAssertion s p => exact preservesSubst_refl ctx
  | Rule head body =>
      exact preservesSubst_trans (normaliseAtomList_preserves head ctx)
        (normaliseAtomList_preserves body _)

/-- Claim C5: within one canonicalization Context the identifier
mapping is stable and first-occurrence ordered: (1) an identifier
already in the map resolves to exactly its stored name with the
Context untouched, so every occurrence of an identifier after its
first receives the same canonical name during a single pass; (2) a
previously unseen identifier is assigned the next name of the sequence
matching its kind — the matching generator advances by one and the
mapping is recorded; (3) the canonicalizer only extends the map:
every mapping present before normalising a component is still present,
unchanged, afterwards, so assignments happen in first-encounter order
of the depth-first left-to-right traversal. -/
theorem C5_context_stability :
    (∀ k iri s ctx, ctx.substitutions.lookup iri = some s →
      sub k iri ctx = (s, ctx)) ∧
    (∀ k iri ctx, ctx.substitutions.lookup iri = none →
      sub k iri ctx = (next_name k ctx,
        { bump k ctx with
            substitutions := (iri, next_name k ctx) :: ctx.substitutions }) ∧
      (sub k iri ctx).2.substitutions.lookup iri = some (next_name k ctx)) ∧
    (∀ c ctx iri s, ctx.substitutions.lookup iri = some s →
      ((normalise c ctx).2).substitutions.lookup iri = some s) :=
  ⟨fun k iri s ctx h => sub_lookup_hit k iri ctx s h,
   fun k iri ctx h => ⟨sub_fresh k iri ctx h, sub_lookup_after_fresh k iri ctx h⟩,
   fun c ctx iri s h => normalise_preserves c ctx iri s h⟩

theorem C5_witness :
    sub .classK "http://a" ⟨[("http://a", "Z")], 0, 0, 0⟩
      = ("Z", ⟨[("http://a", "Z")], 0, 0, 0⟩) ∧
    (sub .dataPropertyK "http://b" {}).2.substitutions.lookup "http://b"
      = some (next_name .dataPropertyK {}) ∧
    ((normalise (.SubClassOf (.Class "http://b") (.Class "http://a"))
        ⟨[("http://a", "Z")], 0, 0, 0⟩).2).substitutions.lookup "http://a"
      = some "Z" :=
  ⟨C5_context_stability.1 .classK "http://a" "Z" _ (by rfl),
   (C5_context_stability.2.1 .dataPropertyK "http://b" {} (by rfl)).2,
   C5_context_stability.2.2 _ _ "http://a" "Z" (by rfl)⟩

/-- Claim C10: the substitution map is keyed by the identifier string
alone, not by (kind, identifier): once an identifier is assigned under
one kind, a later occurrence of the same identifier under any other
kind resolves to the identical canonical name with the Context
unchanged, the name having been drawn from the sequence of the kind
encountered first. Concretely, in one axiom holding a Class and a
DataProperty with the same IRI, both leaves receive the class-sequence
name A. -/
theorem C10_substitutions_keyed_by_identifier_only :
    (∀ k1 k2 iri ctx, ctx.substitutions.lookup iri = none →
      sub k2 iri (sub k1 iri ctx).2
        = ((sub k1 iri ctx).1, (sub k1 iri ctx).2) ∧
      (sub k1 iri ctx).1 = next_name k1 ctx) ∧
    ((normalise (.SubClassOf (.Class "http://ex.org/p")
        (.DataSomeValuesFrom "http://ex.org/p" "xsd:integer")) {}).1
      = Component.SubClassOf (.Class "A")
          (.DataSomeValuesFrom "A" "xsd:integer")) := by
  refine ⟨fun k1 k2 iri ctx h => ⟨?_, congrArg Prod.fst (sub_fresh k1 iri ctx h)⟩, rfl⟩
  rw [sub_lookup_hit k2 iri (sub k1 iri ctx).2 (next_name k1 ctx)
    (sub_lookup_after_fresh k1 iri ctx h)]
  rw [sub_fresh k1 iri ctx h]

theorem C10_witness :
    ({} : Context).substitutions.lookup "http://p" = none ∧
    sub .dataPropertyK "http://p" (sub .classK "http://p" {}).2
      = ((sub .classK "http://p" {}).1, (sub .classK "http://p" {}).2) ∧
    (sub .classK "http://p" {}).1 = next_name .classK {} :=
  ⟨rfl,
   (C10_substitutions_keyed_by_identifier_only.1 .classK .dataPropertyK
     "http://p" {} rfl).1,
   (C10_substitutions_keyed_by_identifier_only.1 .classK .dataPropertyK
     "http://p" {} rfl).2⟩

end AxiomPatterns
